import Mathlib

/-!
Verification development for the desk-decoration sandbox (Rust sources under
`src/`).  The physics and interaction layer (`src/physics.rs`,
`src/desk_object.rs`, the picking and drag handlers of `src/main.rs`) is
shallowly embedded here.  `f32` values are embedded as exact elements of a
linear ordered field (instantiated at `ℚ` for computation-free-of-radicals
functions and at `ℝ` where the source calls `f32::sqrt`); rounding of `f32`
arithmetic is not modelled.  `f32::clamp` panics when `min > max`, so
functions that can reach such a call return `Option`, `none` standing for the
panic.  `u64` identifiers are embedded as `ℕ` (identifiers are assigned by an
incrementing counter and never approach overflow).

The modules `config.rs` and `state.rs` are declared by `main.rs` but are not
present under `src/`; the constants and the object-collection container they
provide are modelled from the spec where needed, and each such definition is
marked `Modelled from the spec:` in its doc comment.
-/

/-- Embedding of `glam::Vec3` (three `f32` components). -/
structure Vec3 (α : Type) where
  x : α
  y : α
  z : α
deriving DecidableEq, Repr

namespace Vec3

variable {α : Type} [LinearOrderedField α]

/-- Componentwise vector addition. -/
def add (a b : Vec3 α) : Vec3 α := ⟨a.x + b.x, a.y + b.y, a.z + b.z⟩

/-- Componentwise vector subtraction. -/
def sub (a b : Vec3 α) : Vec3 α := ⟨a.x - b.x, a.y - b.y, a.z - b.z⟩

/-- Scalar multiplication `v * t` of `glam`. -/
def scale (a : Vec3 α) (t : α) : Vec3 α := ⟨a.x * t, a.y * t, a.z * t⟩

/-- Dot product. -/
def dot (a b : Vec3 α) : α := a.x * b.x + a.y * b.y + a.z * b.z

end Vec3

/-- Embedding of `ObjectType` from `src/desk_object.rs`: the closed
enumeration of desk-object archetypes. -/
inductive ObjectType : Type
  | Clock | Lamp | Plant | Coffee | Laptop | Notebook | PenHolder | Books
  | PhotoFrame | Globe | Trophy | Hourglass | Metronome | Paper | Magazine
  | MusicPlayer | Pen
deriving DecidableEq, Repr

/-- Embedding of `ObjectPhysics` from `src/desk_object.rs`: the per-archetype
physics profile. -/
structure ObjectPhysics (α : Type) where
  weight : α
  stability : α
  height : α
  base_offset : α
  friction : α
  no_stacking_on_top : Bool
deriving DecidableEq, Repr

/-- Embedding of `ObjectType::physics` from `src/desk_object.rs`: the
exhaustive match from archetype to its constant profile. -/
def ObjectType.physics {α : Type} [LinearOrderedField α] :
    ObjectType → ObjectPhysics α
  | .Clock => ⟨0.5, 0.5, 0.6, 0.35, 0.4, true⟩
  | .Lamp => ⟨1.2, 0.85, 0.9, 0.0, 0.5, false⟩
  | .Plant => ⟨1.4, 0.9, 0.5, 0.0, 0.6, false⟩
  | .Coffee => ⟨0.4, 0.6, 0.3, 0.0, 0.5, false⟩
  | .Laptop => ⟨1.5, 0.95, 0.3, 0.0, 0.6, false⟩
  | .Notebook => ⟨0.3, 0.95, 0.1, 0.0, 0.7, false⟩
  | .PenHolder => ⟨0.6, 0.6, 0.4, 0.0, 0.5, false⟩
  | .Books => ⟨0.8, 0.9, 0.15, 0.0, 0.75, false⟩
  | .PhotoFrame => ⟨0.3, 0.35, 0.5, 0.25, 0.4, true⟩
  | .Globe => ⟨1.0, 0.7, 0.5, 0.025, 0.45, false⟩
  | .Trophy => ⟨0.9, 0.6, 0.4, 0.0, 0.5, false⟩
  | .Hourglass => ⟨0.5, 0.45, 0.35, 0.015, 0.4, false⟩
  | .Metronome => ⟨0.7, 0.7, 0.45, 0.0, 0.55, false⟩
  | .Paper => ⟨0.05, 0.98, 0.01, 0.0, 0.8, false⟩
  | .Magazine => ⟨0.3, 0.95, 0.02, 0.0, 0.65, false⟩
  | .MusicPlayer => ⟨0.8, 0.85, 0.15, 0.0, 0.55, false⟩
  | .Pen => ⟨0.05, 0.3, 0.02, 0.0, 0.4, false⟩

/-- Embedding of `DeskObject` from `src/desk_object.rs`.  The fields read by
the physics, picking and interaction code are kept; `rotation`, the two
colours and the `ObjectState` bag are omitted because no embedded function
reads them (they are presentation-only). -/
structure DeskObject (α : Type) where
  id : ℕ
  object_type : ObjectType
  position : Vec3 α
  scale : α
  collision_radius_multiplier : α
  collision_height_multiplier : α
  is_dragging : Bool
  target_y : α
  original_y : α
deriving DecidableEq, Repr

namespace DeskObject

variable {α : Type} [LinearOrderedField α]

/-- Embedding of `DeskObject::collision_radius`: a per-archetype base radius
(default `0.2`), scaled by the object's scale and its radius multiplier. -/
def collision_radius (o : DeskObject α) : α :=
  let base_radius : α :=
    match o.object_type with
    | .Lamp => 0.3
    | .Plant => 0.25
    | .Coffee => 0.15
    | .Laptop => 0.5
    | .Notebook => 0.35
    | .Books => 0.3
    | .Globe => 0.25
    | .Trophy => 0.2
    | .MusicPlayer => 0.25
    | _ => 0.2
  base_radius * o.scale * o.collision_radius_multiplier

/-- Embedding of `DeskObject::collision_height`: the profile height scaled by
the object's scale and its height multiplier. -/
def collision_height (o : DeskObject α) : α :=
  (ObjectType.physics o.object_type).height * o.scale *
    o.collision_height_multiplier

end DeskObject

/-- Embedding of `PhysicsEngine` from `src/physics.rs`.  The desk bounds
tuple `(min x, max x, min z, max z)` is split into four named fields. -/
structure PhysicsEngine (α : Type) where
  collision_radius_multiplier : α
  collision_height_multiplier : α
  friction : α
  bounce_factor : α
  gravity : α
  bounds_min_x : α
  bounds_max_x : α
  bounds_min_z : α
  bounds_max_z : α
  desk_surface_y : α
deriving DecidableEq, Repr

/-- Total part of `f32::clamp`: `if x < lo then lo else if x > hi then hi
else x`, meaningful when `lo ≤ hi`. -/
def clampTotal {α : Type} [LinearOrderedField α] (x lo hi : α) : α :=
  if x < lo then lo else if x > hi then hi else x

/-- Embedding of `f32::clamp`, which panics when `min > max` (`none` stands
for the panic; `NaN` inputs are not representable in the exact model). -/
def rustClamp {α : Type} [LinearOrderedField α] (x lo hi : α) : Option α :=
  if lo ≤ hi then some (clampTotal x lo hi) else none

namespace PhysicsEngine

variable {α : Type} [LinearOrderedField α]

/-- Embedding of `PhysicsEngine::is_on_desk`: axis-aligned bounds test. -/
def is_on_desk (e : PhysicsEngine α) (position : Vec3 α) : Bool :=
  decide (e.bounds_min_x ≤ position.x) && decide (position.x ≤ e.bounds_max_x)
    && decide (e.bounds_min_z ≤ position.z)
    && decide (position.z ≤ e.bounds_max_z)

/-- Embedding of `PhysicsEngine::clamp_to_desk`: clamps `x` to
`[min_x + radius, max_x - radius]` and `z` to `[min_z + radius,
max_z - radius]`, passing `y` through; `none` when either `f32::clamp` call
panics (inverted range). -/
def clamp_to_desk (e : PhysicsEngine α) (position : Vec3 α) (radius : α) :
    Option (Vec3 α) :=
  match rustClamp position.x (e.bounds_min_x + radius)
      (e.bounds_max_x - radius),
    rustClamp position.z (e.bounds_min_z + radius)
      (e.bounds_max_z - radius) with
  | some cx, some cz => some ⟨cx, position.y, cz⟩
  | _, _ => none

/-- Embedding of `PhysicsEngine::check_collision`: `false` on equal ids,
otherwise squared horizontal centre distance below the squared sum of the
effective radii. -/
def check_collision (e : PhysicsEngine α) (obj1 obj2 : DeskObject α) : Bool :=
  if obj1.id = obj2.id then false
  else
    let r1 := obj1.collision_radius * e.collision_radius_multiplier
    let r2 := obj2.collision_radius * e.collision_radius_multiplier
    let min_dist := r1 + r2
    let dx := obj1.position.x - obj2.position.x
    let dz := obj1.position.z - obj2.position.z
    decide (dx * dx + dz * dz < min_dist * min_dist)

/-- Loop body of `PhysicsEngine::calculate_resting_y` (one iteration of the
`for other in other_objects` loop; the radius and profile the source hoists
out of the loop are pure functions of the engine and object and are inlined
here). -/
def restingStep (e : PhysicsEngine α) (object : DeskObject α)
    (highest_y : α) (other : DeskObject α) : α :=
  if other.id = object.id then highest_y
  else if (ObjectType.physics (α := α) other.object_type).no_stacking_on_top
    then highest_y
  else
    let radius := object.collision_radius * e.collision_radius_multiplier
    let other_radius := other.collision_radius * e.collision_radius_multiplier
    let combined_radius := radius + other_radius
    let dx := object.position.x - other.position.x
    let dz := object.position.z - other.position.z
    if dx * dx + dz * dz < combined_radius * combined_radius * 0.5 then
      let other_top := other.position.y +
        other.collision_height * e.collision_height_multiplier
      let stack_y := other_top +
        (ObjectType.physics (α := α) object.object_type).base_offset *
          object.scale
      if stack_y > highest_y then stack_y else highest_y
    else highest_y

/-- Embedding of `PhysicsEngine::calculate_resting_y`: fold of the source's
`highest_y` accumulator over the other objects. -/
def calculate_resting_y (e : PhysicsEngine α) (object : DeskObject α)
    (other_objects : List (DeskObject α)) : α :=
  let physics := ObjectType.physics (α := α) object.object_type
  let base_y := e.desk_surface_y + physics.base_offset * object.scale
  other_objects.foldl (restingStep e object) base_y

/-- Embedding of `PhysicsEngine::update_dragging`: clamps the target to the
desk by the object's own radius (no engine multiplier in the source here),
keeps `y` at `original_y + lift_height`, and marks the object dragging.
`none` stands for the panic of the inner `f32::clamp`. -/
def update_dragging (e : PhysicsEngine α) (object : DeskObject α)
    (target_xz : Vec3 α) (lift_height : α) : Option (DeskObject α) :=
  let radius := object.collision_radius
  match e.clamp_to_desk target_xz radius with
  | some target =>
      some { object with
        position := ⟨target.x, object.original_y + lift_height, target.z⟩,
        is_dragging := true }
  | none => none

/-- Embedding of `PhysicsEngine::update_dropping`: returns the updated object
together with the `bool` the source returns. -/
def update_dropping (_e : PhysicsEngine α) (object : DeskObject α)
    (_other_objects : List (DeskObject α)) (drop_speed : α) :
    DeskObject α × Bool :=
  if object.is_dragging = false ∧
      |object.position.y - object.target_y| > 0.001 then
    let diff := object.target_y - object.position.y
    let y1 := object.position.y + diff * drop_speed
    let y2 := if |y1 - object.target_y| < 0.01 then object.target_y else y1
    ({ object with position := ⟨object.position.x, y2, object.position.z⟩ },
      true)
  else (object, false)

/-- Embedding of `PhysicsEngine::end_drag`: clears the dragging flag and
resets `target_y` and `original_y` from `calculate_resting_y`. -/
def end_drag (e : PhysicsEngine α) (object : DeskObject α)
    (other_objects : List (DeskObject α)) : DeskObject α :=
  let object1 := { object with is_dragging := false }
  let ty := e.calculate_resting_y object1 other_objects
  { object1 with target_y := ty, original_y := ty }

end PhysicsEngine

/-- Loop body of `PhysicsEngine::find_valid_position` (one iteration of the
push-away pass over `other_objects`; the radius the source hoists out of
the loop is a pure function of the engine and object and is inlined here).
Uses `Real.sqrt` because the source takes an `f32` square root. -/
noncomputable def pushStep (e : PhysicsEngine ℝ) (object : DeskObject ℝ)
    (position : Vec3 ℝ) (other : DeskObject ℝ) : Vec3 ℝ :=
  if other.id = object.id then position
  else
    let radius := object.collision_radius * e.collision_radius_multiplier
    let other_radius :=
      other.collision_radius * e.collision_radius_multiplier
    let min_dist := radius + other_radius
    let dx := position.x - other.position.x
    let dz := position.z - other.position.z
    let dist := Real.sqrt (dx * dx + dz * dz)
    if dist < min_dist ∧ dist > 0.001 then
      let push_dist := min_dist - dist + 0.05
      ⟨position.x + dx / dist * push_dist, position.y,
        position.z + dz / dist * push_dist⟩
    else position

/-- Embedding of `PhysicsEngine::find_valid_position` (over `ℝ`, because the
source takes an `f32` square root): clamp the target, run the single
push-away pass over the other objects, re-clamp.  `none` stands for the
panic of an inner `f32::clamp` with an inverted range. -/
noncomputable def PhysicsEngine.find_valid_position (e : PhysicsEngine ℝ)
    (target : Vec3 ℝ) (object : DeskObject ℝ)
    (other_objects : List (DeskObject ℝ)) : Option (Vec3 ℝ) :=
  let radius := object.collision_radius * e.collision_radius_multiplier
  match e.clamp_to_desk target radius with
  | none => none
  | some start =>
      e.clamp_to_desk (other_objects.foldl (pushStep e object) start) radius

/-- Loop body of the picking scan of `src/main.rs` (one iteration of the
`for obj in &self.state.objects` loop shared verbatim by
`find_object_at_crosshair`, `find_object_at_cursor` and `try_pick_object`).
The accumulator pairs `best_dist` with `best_id`; `none` stands for the
initial `best_dist = f32::MAX`, which every finite `t` is below. -/
noncomputable def pickStep (ray_origin ray_world : Vec3 ℝ)
    (best : Option (ℝ × ℕ)) (obj : DeskObject ℝ) : Option (ℝ × ℕ) :=
  let to_obj := obj.position.sub ray_origin
  let t := to_obj.dot ray_world
  if t < 0 then best
  else
    let closest := ray_origin.add (ray_world.scale t)
    let offset := closest.sub obj.position
    let dist := Real.sqrt (offset.dot offset)
    let radius := obj.collision_radius * 1.5
    if dist < radius then
      match best with
      | none => some (t, obj.id)
      | some b => if t < b.1 then some (t, obj.id) else best
    else best

/-- Embedding of the picking scan shared by `find_object_at_crosshair`,
`find_object_at_cursor` and `try_pick_object` in `src/main.rs`, taking the
constructed world-space ray as input and returning `best_id`. -/
noncomputable def find_object_at (objects : List (DeskObject ℝ))
    (ray_origin ray_world : Vec3 ℝ) : Option ℕ :=
  (objects.foldl (pickStep ray_origin ray_world)
    (none : Option (ℝ × ℕ))).map Prod.snd

/-- Embedding of `ray_plane_intersection` from `src/physics.rs`. -/
def ray_plane_intersection {α : Type} [LinearOrderedField α]
    (ray_origin ray_direction plane_point plane_normal : Vec3 α) :
    Option (Vec3 α) :=
  let denom := plane_normal.dot ray_direction
  if |denom| < 0.0001 then none
  else
    let t := (plane_point.sub ray_origin).dot plane_normal / denom
    if t < 0 then none
    else some (ray_origin.add (ray_direction.scale t))

/-- Modelled from the spec: `state.rs` (the `AppState` object collection) is
not under `src/`.  The spec's data model is an exclusively owned collection
of `DeskObject`; the `get_object_mut` call sites in `src/main.rs` mutate the
object with the requested id and are no-ops on a missing id, embedded as a
functional update of every list entry carrying that id. -/
def updateById (objects : List (DeskObject ℝ)) (id : ℕ)
    (f : DeskObject ℝ → DeskObject ℝ) : List (DeskObject ℝ) :=
  objects.map fun o => if o.id = id then f o else o

/-- Modelled from the spec: removal by id (`AppState::remove_object`, called
from the `Delete` handler of `src/main.rs`); missing ids are no-ops. -/
def removeById (objects : List (DeskObject ℝ)) (id : ℕ) :
    List (DeskObject ℝ) :=
  objects.filter fun o => o.id != id

/-- Interaction state: the object collection together with the
`dragging_object_id` field of `App` in `src/main.rs`. -/
structure SimState where
  objects : List (DeskObject ℝ)
  dragging_object_id : Option ℕ

/-- Interaction events.  Pick-down and move carry the world-space ray the
handlers of `src/main.rs` construct from the camera; delete carries the id
`ui_state.crosshair_target_id` holds at the event. -/
inductive SimEvent : Type
  | pickDown (ray_origin ray_world : Vec3 ℝ)
  | move (ray_origin ray_world : Vec3 ℝ)
  | release
  | delete (crosshair_target : Option ℕ)

/-- One interaction step, following the handlers of `src/main.rs`: pick-down
is `try_pick_object_crosshair` / `try_pick_object` (no check that a drag is
already active before overwriting the active id and flag), move is
`update_drag` / `update_drag_crosshair` (fixed clamp constants `±4.5` and
`±3.0`, `y` pinned to the drag plane `desk_surface_y + 0.5`), release is the
mouse-release arm calling `end_drag` against a pre-mutation clone of the
collection, delete is the `Delete`-key arm
(`dragging_object_id.take().or(crosshair_target)`). -/
noncomputable def step (e : PhysicsEngine ℝ) (s : SimState) :
    SimEvent → SimState
  | .pickDown ro rw =>
      match find_object_at s.objects ro rw with
      | some id =>
          { objects := updateById s.objects id
              (fun o => { o with is_dragging := true }),
            dragging_object_id := some id }
      | none => s
  | .move ro rw =>
      let plane_y := e.desk_surface_y + 0.5
      match ray_plane_intersection ro rw ⟨0, plane_y, 0⟩ ⟨0, 1, 0⟩ with
      | some intersection =>
          match s.dragging_object_id with
          | some id =>
              let f : DeskObject ℝ → DeskObject ℝ := fun o =>
                { o with position :=
                    ⟨clampTotal intersection.x (-4.5) 4.5, plane_y,
                      clampTotal intersection.z (-3.0) 3.0⟩ }
              { s with objects := updateById s.objects id f }
          | none => s
      | none => s
  | .release =>
      match s.dragging_object_id with
      | some id =>
          { objects := updateById s.objects id
              (fun o => e.end_drag o s.objects),
            dragging_object_id := none }
      | none => { s with dragging_object_id := none }
  | .delete ct =>
      match s.dragging_object_id with
      | some id =>
          { objects := removeById s.objects id, dragging_object_id := none }
      | none =>
          match ct with
          | some id =>
              { objects := removeById s.objects id,
                dragging_object_id := none }
          | none => { s with dragging_object_id := none }

/-- Run of the interaction machine over a list of events. -/
noncomputable def run (e : PhysicsEngine ℝ) (s : SimState)
    (events : List SimEvent) : SimState :=
  events.foldl (step e) s

/-- Initial states of a session: no active drag and no dragging flag set
(`is_dragging` is `serde(skip)`, so every loaded or created object starts
with the flag clear). -/
def InitState (s : SimState) : Prop :=
  s.dragging_object_id = none ∧ ∀ o ∈ s.objects, o.is_dragging = false

/-- Number of objects currently marked as being dragged. -/
def dragCount (objects : List (DeskObject ℝ)) : ℕ :=
  (objects.filter fun o => o.is_dragging).length

/-- Modelled from the spec: `config.rs` is not under `src/`, so the constants
`PhysicsEngine::default` reads from `CONFIG` are taken from the spec and from
`src/main.rs`: desk surface y `0.75` (spec Scenario 2), desk half extents
`4.5` and `3.0` matching the drag clamp constants hard-coded in
`update_drag`, both global multipliers `1.0` as in `PhysicsEngine::default`.
The friction, bounce and gravity constants are read by no embedded function;
representative values stand in for them. -/
def engineSpec {α : Type} [LinearOrderedField α] : PhysicsEngine α where
  collision_radius_multiplier := 1.0
  collision_height_multiplier := 1.0
  friction := 0.5
  bounce_factor := 0.3
  gravity := 9.8
  bounds_min_x := -4.5
  bounds_max_x := 4.5
  bounds_min_z := -3.0
  bounds_max_z := 3.0
  desk_surface_y := 0.75

/-- Effective collision radius of an object under an engine: the per-object
radius times the engine's global multiplier, as used by `check_collision`,
`find_valid_position` and `calculate_resting_y`. -/
def effRadius {α : Type} [LinearOrderedField α] (e : PhysicsEngine α)
    (o : DeskObject α) : α :=
  o.collision_radius * e.collision_radius_multiplier

/-- Squared horizontal (x/z) distance between two points. -/
def horizDistSq {α : Type} [LinearOrderedField α] (a b : Vec3 α) : α :=
  (a.x - b.x) * (a.x - b.x) + (a.z - b.z) * (a.z - b.z)

/-- Base resting height of the spec: desk surface plus the archetype's base
offset scaled by the object's scale. -/
def baseRestY {α : Type} [LinearOrderedField α] (e : PhysicsEngine α)
    (object : DeskObject α) : α :=
  e.desk_surface_y +
    (ObjectType.physics object.object_type).base_offset * object.scale

/-- Candidate stacking height of the spec: the other object's top surface
(its `y` plus its effective collision height) plus the base offset of the
object being rested, scaled. -/
def stackCandidateY {α : Type} [LinearOrderedField α] (e : PhysicsEngine α)
    (object other : DeskObject α) : α :=
  other.position.y + other.collision_height * e.collision_height_multiplier +
    (ObjectType.physics object.object_type).base_offset * object.scale

/-- Qualification test of the spec for resting `object` on `other`: distinct
ids, stacking allowed on `other`, and squared horizontal centre distance
below half the squared sum of effective radii. -/
def QualifiesForStack {α : Type} [LinearOrderedField α] (e : PhysicsEngine α)
    (object other : DeskObject α) : Prop :=
  other.id ≠ object.id ∧
  (ObjectType.physics (α := α) other.object_type).no_stacking_on_top = false ∧
  horizDistSq object.position other.position <
    (effRadius e object + effRadius e other) *
      (effRadius e object + effRadius e other) * 0.5

/-- The object with its `y` coordinate replaced (used to state that collision
checks ignore height). -/
def DeskObject.withY {α : Type} [LinearOrderedField α] (o : DeskObject α)
    (y : α) : DeskObject α :=
  { o with position := ⟨o.position.x, y, o.position.z⟩ }

/-- Ray parameter at the closest approach of the picking ray to an object's
centre, `dot(position - ray_origin, ray_direction)` of the spec. -/
noncomputable def pickT (ray_origin ray_world : Vec3 ℝ)
    (o : DeskObject ℝ) : ℝ :=
  (o.position.sub ray_origin).dot ray_world

/-- Distance from the ray point at parameter `pickT` to the object's
centre. -/
noncomputable def pickDist (ray_origin ray_world : Vec3 ℝ)
    (o : DeskObject ℝ) : ℝ :=
  let closest := ray_origin.add (ray_world.scale (pickT ray_origin ray_world o))
  let offset := closest.sub o.position
  Real.sqrt (offset.dot offset)

/-- Spec-side validity of a picking candidate: ray parameter not negative and
ray distance strictly below `collision_radius × 1.5`. -/
noncomputable def ValidPick (ray_origin ray_world : Vec3 ℝ)
    (o : DeskObject ℝ) : Prop :=
  0 ≤ pickT ray_origin ray_world o ∧
    pickDist ray_origin ray_world o < o.collision_radius * 1.5

/-- Iterated settle animation: `n` applications of `update_dropping` to the
object (the per-frame loop of `App::update` in `src/main.rs` restricted to a
single object). -/
def dropIter (e : PhysicsEngine ℚ) (others : List (DeskObject ℚ)) (s : ℚ)
    (obj : DeskObject ℚ) : ℕ → DeskObject ℚ
  | 0 => obj
  | n + 1 => (PhysicsEngine.update_dropping e (dropIter e others s obj n)
      others s).1

/-- Height gap after `n` settle frames: the distance of the iterated
`position.y` from the object's fixed `target_y`. -/
def dropGap (e : PhysicsEngine ℚ) (others : List (DeskObject ℚ)) (s : ℚ)
    (obj : DeskObject ℚ) (n : ℕ) : ℚ :=
  (dropIter e others s obj n).position.y - obj.target_y

/-- Clock object on the ray along the positive x axis (picking trace). -/
noncomputable def pickObjA : DeskObject ℝ :=
  ⟨1, .Clock, ⟨2, 0, 0⟩, 1, 1, 1, false, 0, 0⟩

/-- Clock object on the ray along the positive z axis (picking trace). -/
noncomputable def pickObjB : DeskObject ℝ :=
  ⟨2, .Clock, ⟨0, 0, 2⟩, 1, 1, 1, false, 0, 0⟩

/-- Dragged clock whose settled height `original_y` is `2`. -/
noncomputable def moveObjLow : DeskObject ℝ :=
  ⟨1, .Clock, ⟨0, 1.25, 0⟩, 1, 1, 1, true, 2, 2⟩

/-- Dragged clock whose settled height `original_y` is `7`. -/
noncomputable def moveObjHigh : DeskObject ℝ :=
  ⟨1, .Clock, ⟨0, 1.25, 0⟩, 1, 1, 1, true, 7, 7⟩

/-- Lamp being placed in the coincident-centre scenario. -/
noncomputable def fvObj : DeskObject ℝ :=
  ⟨1, .Lamp, ⟨1, 1.25, 1⟩, 1, 1, 1, false, 0.75, 0.75⟩

/-- Lamp already sitting at the coincident centre `(1, _, 1)`. -/
noncomputable def fvOther : DeskObject ℝ :=
  ⟨2, .Lamp, ⟨1, 0.75, 1⟩, 1, 1, 1, false, 0.75, 0.75⟩

/-- Lamp being placed in the single-overlap push scenario. -/
noncomputable def fvWitObj : DeskObject ℝ :=
  ⟨1, .Lamp, ⟨0.3, 1, 0.4⟩, 1, 1, 1, false, 0.75, 0.75⟩

/-- Lamp at the origin that the push scenario collides with. -/
noncomputable def fvWitOther : DeskObject ℝ :=
  ⟨2, .Lamp, ⟨0, 0.75, 0⟩, 1, 1, 1, false, 0.75, 0.75⟩

/-- Non-dragging clock whose starting `y` is inside the `0.001` dead band of
`update_dropping` but not equal to `target_y`. -/
def dropStuckObj : DeskObject ℚ :=
  ⟨1, .Clock, ⟨0, 0.7505, 0⟩, 1, 1, 1, false, 0.75, 0.75⟩

/-- Non-dragging clock one unit above its target height. -/
def dropWitObj : DeskObject ℚ :=
  ⟨1, .Clock, ⟨0, 1.75, 0⟩, 1, 1, 1, false, 0.75, 0.75⟩

/-- Non-dragging clock used for the single-step dropping witness. -/
def dropMoveObj : DeskObject ℚ :=
  ⟨1, .Clock, ⟨0, 2, 0⟩, 1, 1, 1, false, 1, 1⟩

/-- Clock of effective radius `0.2` at the horizontal origin. -/
noncomputable def collObjA : DeskObject ℝ :=
  ⟨1, .Clock, ⟨0, 0.85, 0⟩, 1, 1, 1, false, 0.85, 0.85⟩

/-- Clock of effective radius `0.2` with its centre `0.3` away. -/
noncomputable def collObjB : DeskObject ℝ :=
  ⟨2, .Clock, ⟨0.3, 0.85, 0⟩, 1, 1, 1, false, 0.85, 0.85⟩

/-- Clock strictly behind the picking ray used for Scenario 5. -/
noncomputable def pickBehindObj : DeskObject ℝ :=
  ⟨1, .Clock, ⟨-1, 0, 0⟩, 1, 1, 1, false, 0, 0⟩

/-- Clock used for the resting-height witness, horizontally centred over the
stacking base. -/
def restObj : DeskObject ℚ :=
  ⟨1, .Clock, ⟨0, 1.1, 0⟩, 1, 1, 1, false, 1.1, 1.1⟩

/-- Books pile the resting-height witness stacks onto. -/
def restOther : DeskObject ℚ :=
  ⟨2, .Books, ⟨0.1, 0.75, 0⟩, 1, 1, 1, false, 0.75, 0.75⟩

/-- Clock used for the frame-effect witness of `find_valid_position`. -/
noncomputable def frameObj : DeskObject ℝ :=
  ⟨1, .Clock, ⟨1, 2, -1⟩, 1, 1, 1, false, 1.1, 1.1⟩

theorem clampTotal_mem {α : Type} [LinearOrderedField α] {x lo hi : α}
    (h : lo ≤ hi) : lo ≤ clampTotal x lo hi ∧ clampTotal x lo hi ≤ hi := by
  unfold clampTotal
  split_ifs with h1 h2
  · exact ⟨le_refl lo, h⟩
  · exact ⟨h, le_refl hi⟩
  · exact ⟨le_of_not_lt h1, le_of_not_lt h2⟩

theorem clamp_to_desk_eq {α : Type} [LinearOrderedField α]
    (e : PhysicsEngine α) (p : Vec3 α) (r : α)
    (hx : e.bounds_min_x + r ≤ e.bounds_max_x - r)
    (hz : e.bounds_min_z + r ≤ e.bounds_max_z - r) :
    e.clamp_to_desk p r = some
      ⟨clampTotal p.x (e.bounds_min_x + r) (e.bounds_max_x - r), p.y,
        clampTotal p.z (e.bounds_min_z + r) (e.bounds_max_z - r)⟩ := by
  unfold PhysicsEngine.clamp_to_desk rustClamp
  rw [if_pos hx, if_pos hz]

/-- C3 (amended): for every position and every nonnegative radius that does
not exceed the desk half extents, `clamp_to_desk` is total and deterministic:
it returns a position whose `x`/`z` collision disk of radius `r` lies within
the desk bounds and whose `y` is passed through unchanged. -/
theorem C3_clamp_total (e : PhysicsEngine ℚ) (p : Vec3 ℚ) (r : ℚ)
    (_hr : 0 ≤ r)
    (hx : e.bounds_min_x + r ≤ e.bounds_max_x - r)
    (hz : e.bounds_min_z + r ≤ e.bounds_max_z - r) :
    ∃ q : Vec3 ℚ, e.clamp_to_desk p r = some q ∧ q.y = p.y ∧
      e.bounds_min_x ≤ q.x - r ∧ q.x + r ≤ e.bounds_max_x ∧
      e.bounds_min_z ≤ q.z - r ∧ q.z + r ≤ e.bounds_max_z := by
  refine ⟨_, clamp_to_desk_eq e p r hx hz, rfl, ?_, ?_, ?_, ?_⟩
  · have := (clampTotal_mem (x := p.x) hx).1
    simp only at this ⊢
    linarith
  · have := (clampTotal_mem (x := p.x) hx).2
    simp only at this ⊢
    linarith
  · have := (clampTotal_mem (x := p.z) hz).1
    simp only at this ⊢
    linarith
  · have := (clampTotal_mem (x := p.z) hz).2
    simp only at this ⊢
    linarith

/-- C3 witness: the amended claim applied at the modelled engine, position
`(6, 2, -10)` and radius `0.2`. -/
theorem C3_clamp_total_witness :
    ∃ q : Vec3 ℚ, PhysicsEngine.clamp_to_desk (engineSpec : PhysicsEngine ℚ)
        ⟨6, 2, -10⟩ 0.2 = some q ∧ q.y = 2 ∧
      (engineSpec : PhysicsEngine ℚ).bounds_min_x ≤ q.x - 0.2 ∧
      q.x + 0.2 ≤ (engineSpec : PhysicsEngine ℚ).bounds_max_x ∧
      (engineSpec : PhysicsEngine ℚ).bounds_min_z ≤ q.z - 0.2 ∧
      q.z + 0.2 ≤ (engineSpec : PhysicsEngine ℚ).bounds_max_z :=
  C3_clamp_total engineSpec ⟨6, 2, -10⟩ 0.2 (by norm_num)
    (by norm_num [engineSpec]) (by norm_num [engineSpec])

/-- C3 counterexample: at radius `1000` (nonnegative, exceeding the desk half
extents) the inverted clamp range makes the inner `f32::clamp` fault
(`none`), so the claim's deterministic fallback value does not exist. -/
theorem C3_counterexample :
    (0 : ℚ) ≤ 1000 ∧
      PhysicsEngine.clamp_to_desk (engineSpec : PhysicsEngine ℚ) ⟨0, 0, 0⟩ 1000
        = none := by
  refine ⟨by norm_num, ?_⟩
  unfold PhysicsEngine.clamp_to_desk rustClamp
  rw [if_neg (by norm_num [engineSpec])]

theorem restingStep_ge {α : Type} [LinearOrderedField α]
    (e : PhysicsEngine α) (object : DeskObject α) (acc : α)
    (other : DeskObject α) :
    acc ≤ PhysicsEngine.restingStep e object acc other := by
  unfold PhysicsEngine.restingStep
  dsimp only
  split_ifs with h1 h2 h3 h4
  · exact le_refl _
  · exact le_refl _
  · linarith
  · exact le_refl _
  · exact le_refl _

theorem restingStep_cases {α : Type} [LinearOrderedField α]
    (e : PhysicsEngine α) (object : DeskObject α) (acc : α)
    (other : DeskObject α) :
    PhysicsEngine.restingStep e object acc other = acc ∨
      (QualifiesForStack e object other ∧
        PhysicsEngine.restingStep e object acc other =
          stackCandidateY e object other) := by
  unfold PhysicsEngine.restingStep QualifiesForStack stackCandidateY
    horizDistSq effRadius
  dsimp only
  split_ifs with h1 h2 h3 h4
  · exact Or.inl rfl
  · exact Or.inl rfl
  · exact Or.inr ⟨⟨h1, by simpa using h2, h3⟩, rfl⟩
  · exact Or.inl rfl
  · exact Or.inl rfl

theorem restingStep_cand_le {α : Type} [LinearOrderedField α]
    (e : PhysicsEngine α) (object : DeskObject α) (acc : α)
    (other : DeskObject α) (h : QualifiesForStack e object other) :
    stackCandidateY e object other ≤
      PhysicsEngine.restingStep e object acc other := by
  obtain ⟨h1, h2, h3⟩ := h
  unfold horizDistSq effRadius at h3
  unfold PhysicsEngine.restingStep stackCandidateY
  dsimp only
  rw [if_neg h1, if_neg (by simp [h2]), if_pos h3]
  split_ifs with h4
  · exact le_refl _
  · linarith [le_of_not_lt h4]

theorem restingFold_start_le {α : Type} [LinearOrderedField α]
    (e : PhysicsEngine α) (object : DeskObject α) :
    ∀ (l : List (DeskObject α)) (acc : α),
      acc ≤ l.foldl (PhysicsEngine.restingStep e object) acc
  | [], _ => le_refl _
  | o :: l, acc =>
      le_trans (restingStep_ge e object acc o)
        (restingFold_start_le e object l
          (PhysicsEngine.restingStep e object acc o))

theorem restingFold_cand_le {α : Type} [LinearOrderedField α]
    (e : PhysicsEngine α) (object : DeskObject α) (l : List (DeskObject α)) :
    ∀ (acc : α) (other : DeskObject α),
      other ∈ l → QualifiesForStack e object other →
      stackCandidateY e object other ≤
        l.foldl (PhysicsEngine.restingStep e object) acc := by
  induction l with
  | nil => intro acc other hm; exact absurd hm (List.not_mem_nil other)
  | cons o l ih =>
      intro acc other hm hq
      rw [List.foldl_cons]
      rcases List.mem_cons.mp hm with h | h
      · subst h
        exact le_trans (restingStep_cand_le e object acc other hq)
          (restingFold_start_le e object l _)
      · exact ih _ other h hq

theorem restingFold_mem {α : Type} [LinearOrderedField α]
    (e : PhysicsEngine α) (object : DeskObject α) (l : List (DeskObject α)) :
    ∀ acc : α,
      l.foldl (PhysicsEngine.restingStep e object) acc = acc ∨
        ∃ other ∈ l, QualifiesForStack e object other ∧
          l.foldl (PhysicsEngine.restingStep e object) acc =
            stackCandidateY e object other := by
  induction l with
  | nil => intro acc; exact Or.inl rfl
  | cons o l ih =>
      intro acc
      rw [List.foldl_cons]
      rcases ih (PhysicsEngine.restingStep e object acc o) with h |
        ⟨other, hm, hq, hv⟩
      · rw [h]
        rcases restingStep_cases e object acc o with h0 | ⟨hq, hv⟩
        · exact Or.inl h0
        · exact Or.inr ⟨o, List.mem_cons_self o l, hq, hv⟩
      · exact Or.inr ⟨other, List.mem_cons_of_mem o hm, hq, hv⟩

/-- C4: `calculate_resting_y` returns the maximum of the base height
(desk surface plus scaled base offset) and the candidate stacking heights of
every other object that allows stacking on top and overlaps horizontally
within half the squared sum of effective radii: the result is at least the
base height, at least every qualifying candidate, and is itself one of those
values; on an empty desk it is exactly the base height (the spec's
Scenario 2 instance `0.75 + 0.1 × 1.0 = 0.85` is this empty-desk case). -/
theorem C4_resting_y_max (e : PhysicsEngine ℚ) (object : DeskObject ℚ)
    (others : List (DeskObject ℚ)) :
    (baseRestY e object ≤ e.calculate_resting_y object others) ∧
    (∀ other ∈ others, QualifiesForStack e object other →
        stackCandidateY e object other ≤
          e.calculate_resting_y object others) ∧
    (e.calculate_resting_y object others = baseRestY e object ∨
      ∃ other ∈ others, QualifiesForStack e object other ∧
        e.calculate_resting_y object others =
          stackCandidateY e object other) ∧
    e.calculate_resting_y object [] = baseRestY e object := by
  refine ⟨?_, ?_, ?_, rfl⟩
  · exact restingFold_start_le e object others (baseRestY e object)
  · intro other hm hq
    exact restingFold_cand_le e object others (baseRestY e object) other hm hq
  · exact restingFold_mem e object others (baseRestY e object)

/-- C4 witness: the characterization applied to a clock resting on a pile of
books; the qualifying stack candidate bounds the computed resting height. -/
theorem C4_resting_y_max_witness :
    stackCandidateY (engineSpec : PhysicsEngine ℚ) restObj restOther ≤
      PhysicsEngine.calculate_resting_y engineSpec restObj [restOther] :=
  (C4_resting_y_max engineSpec restObj [restOther]).2.1 restOther
    (List.mem_singleton.mpr rfl)
    (by
      refine ⟨by norm_num [restObj, restOther], ?_, ?_⟩
      · norm_num [restOther, ObjectType.physics]
      · norm_num [horizDistSq, effRadius, restObj, restOther, engineSpec,
          DeskObject.collision_radius])

theorem drop_noop (e : PhysicsEngine ℚ) (o : DeskObject ℚ)
    (others : List (DeskObject ℚ)) (s : ℚ)
    (h : o.is_dragging = true ∨ |o.position.y - o.target_y| ≤ 0.001) :
    e.update_dropping o others s = (o, false) := by
  unfold PhysicsEngine.update_dropping
  rw [if_neg]
  rintro ⟨hd, hg⟩
  rcases h with h | h
  · rw [h] at hd; cases hd
  · exact absurd hg (not_lt.mpr h)

theorem drop_active (e : PhysicsEngine ℚ) (o : DeskObject ℚ)
    (others : List (DeskObject ℚ)) (s : ℚ) (hd : o.is_dragging = false)
    (hg : 0.001 < |o.position.y - o.target_y|) :
    (e.update_dropping o others s).2 = true ∧
    (e.update_dropping o others s).1 = { o with position :=
      ⟨o.position.x,
        if |o.position.y + (o.target_y - o.position.y) * s - o.target_y|
            < 0.01 then o.target_y
          else o.position.y + (o.target_y - o.position.y) * s,
        o.position.z⟩ } := by
  unfold PhysicsEngine.update_dropping
  rw [if_pos ⟨hd, hg⟩]
  exact ⟨rfl, rfl⟩

/-- C6: `update_dropping` is a no-op returning `false` when the object is
being dragged or its height is within `0.001` of `target_y`; otherwise it
returns `true` and moves `position.y` toward `target_y` by
`drop_speed × (target_y − position.y)`, snapping exactly onto `target_y`
when the moved height lands within `0.01` of it, leaving every other field
unchanged. -/
theorem C6_update_dropping (e : PhysicsEngine ℚ) (obj : DeskObject ℚ)
    (others : List (DeskObject ℚ)) (s : ℚ) :
    ((obj.is_dragging = true ∨ |obj.position.y - obj.target_y| ≤ 0.001) →
      e.update_dropping obj others s = (obj, false)) ∧
    (obj.is_dragging = false → 0.001 < |obj.position.y - obj.target_y| →
      (e.update_dropping obj others s).2 = true ∧
      (e.update_dropping obj others s).1 = { obj with position :=
        ⟨obj.position.x,
          if |obj.position.y + (obj.target_y - obj.position.y) * s -
              obj.target_y| < 0.01 then obj.target_y
            else obj.position.y + (obj.target_y - obj.position.y) * s,
          obj.position.z⟩ }) :=
  ⟨drop_noop e obj others s, drop_active e obj others s⟩

/-- C6 witness: one animating step at speed `1/2` from height `2` toward
target `1` returns `true`. -/
theorem C6_update_dropping_witness :
    (PhysicsEngine.update_dropping (engineSpec : PhysicsEngine ℚ) dropMoveObj
      [] (1/2)).2 = true :=
  ((C6_update_dropping engineSpec dropMoveObj [] (1/2)).2 rfl
    (by norm_num [dropMoveObj])).1

theorem update_dropping_fields (e : PhysicsEngine ℚ) (o : DeskObject ℚ)
    (others : List (DeskObject ℚ)) (s : ℚ) :
    ((e.update_dropping o others s).1).is_dragging = o.is_dragging ∧
    ((e.update_dropping o others s).1).target_y = o.target_y := by
  unfold PhysicsEngine.update_dropping
  split_ifs <;> exact ⟨rfl, rfl⟩

theorem dropIter_fields (e : PhysicsEngine ℚ) (others : List (DeskObject ℚ))
    (s : ℚ) (obj : DeskObject ℚ) (hd : obj.is_dragging = false) :
    ∀ n : ℕ, (dropIter e others s obj n).is_dragging = false ∧
      (dropIter e others s obj n).target_y = obj.target_y
  | 0 => ⟨hd, rfl⟩
  | n + 1 => by
      have ih := dropIter_fields e others s obj hd n
      have hf := update_dropping_fields e (dropIter e others s obj n) others s
      exact ⟨hf.1.trans ih.1, hf.2.trans ih.2⟩

theorem drop_gap_step (e : PhysicsEngine ℚ) (o : DeskObject ℚ)
    (others : List (DeskObject ℚ)) (s : ℚ) (hd : o.is_dragging = false)
    (hg : 0.001 < |o.position.y - o.target_y|) :
    ((e.update_dropping o others s).1).position.y - o.target_y =
      if |(o.position.y - o.target_y) * (1 - s)| < 0.01 then 0
      else (o.position.y - o.target_y) * (1 - s) := by
  have h := (drop_active e o others s hd hg).2
  rw [h]
  have hc : o.position.y + (o.target_y - o.position.y) * s - o.target_y =
      (o.position.y - o.target_y) * (1 - s) := by ring
  dsimp only
  rw [hc]
  split_ifs with h1
  · exact sub_self _
  · exact hc

theorem dropGap_succ (e : PhysicsEngine ℚ) (others : List (DeskObject ℚ))
    (s : ℚ) (obj : DeskObject ℚ) (hd : obj.is_dragging = false) (n : ℕ)
    (hg : 0.001 < |dropGap e others s obj n|) :
    dropGap e others s obj (n + 1) =
      if |dropGap e others s obj n * (1 - s)| < 0.01 then 0
      else dropGap e others s obj n * (1 - s) := by
  have hf := dropIter_fields e others s obj hd n
  have hgap : 0.001 < |(dropIter e others s obj n).position.y -
      (dropIter e others s obj n).target_y| := by
    rw [hf.2]; exact hg
  have h := drop_gap_step e (dropIter e others s obj n) others s hf.1 hgap
  rw [hf.2] at h
  exact h

theorem dropIter_stuck (e : PhysicsEngine ℚ) (others : List (DeskObject ℚ))
    (s : ℚ) (obj : DeskObject ℚ) (hd : obj.is_dragging = false)
    (h : |obj.position.y - obj.target_y| ≤ 0.001) :
    ∀ n : ℕ, dropIter e others s obj n = obj
  | 0 => rfl
  | n + 1 => by
      have ih := dropIter_stuck e others s obj hd h n
      show (PhysicsEngine.update_dropping e (dropIter e others s obj n)
        others s).1 = obj
      rw [ih, drop_noop e obj others s (Or.inr h)]

theorem dropIter_frozen (e : PhysicsEngine ℚ) (others : List (DeskObject ℚ))
    (s : ℚ) (obj : DeskObject ℚ) (hd : obj.is_dragging = false) (N : ℕ)
    (hN : |dropGap e others s obj N| ≤ 0.001) :
    ∀ k : ℕ, dropIter e others s obj (N + k) = dropIter e others s obj N
  | 0 => rfl
  | k + 1 => by
      have ih := dropIter_frozen e others s obj hd N hN k
      show (PhysicsEngine.update_dropping e (dropIter e others s obj (N + k))
        others s).1 = dropIter e others s obj N
      rw [ih]
      have hf := dropIter_fields e others s obj hd N
      have hnoop := drop_noop e (dropIter e others s obj N) others s
        (Or.inr (by rw [hf.2]; exact hN))
      rw [hnoop]

theorem drop_reaches (e : PhysicsEngine ℚ) (others : List (DeskObject ℚ))
    (s : ℚ) (obj : DeskObject ℚ) (hd : obj.is_dragging = false)
    (hs0 : 0 < s) (hs1 : s < 1) :
    ∃ n : ℕ, |dropGap e others s obj n| ≤ 0.001 := by
  by_contra hcon
  push_neg at hcon
  have hstep : ∀ n : ℕ, dropGap e others s obj (n + 1) =
      dropGap e others s obj n * (1 - s) ∧
      0.01 ≤ |dropGap e others s obj (n + 1)| := by
    intro n
    have hsucc := dropGap_succ e others s obj hd n (hcon n)
    by_cases hsnap : |dropGap e others s obj n * (1 - s)| < 0.01
    · exfalso
      have h0 : dropGap e others s obj (n + 1) = 0 := by
        rw [hsucc, if_pos hsnap]
      have := hcon (n + 1)
      rw [h0] at this
      norm_num at this
    · rw [hsucc, if_neg hsnap]
      exact ⟨rfl, le_of_not_lt hsnap⟩
  have hpow : ∀ n : ℕ, dropGap e others s obj n =
      dropGap e others s obj 0 * (1 - s) ^ n := by
    intro n
    induction n with
    | zero => simp
    | succ n ih =>
        rw [pow_succ, ← mul_assoc, ← ih]
        exact (hstep n).1
  have hg0 : (0.001 : ℚ) < |dropGap e others s obj 0| := hcon 0
  have hg0pos : (0 : ℚ) < |dropGap e others s obj 0| := by linarith
  have h1s0 : (0 : ℚ) < 1 - s := by linarith
  have h1s1 : (1 : ℚ) - s < 1 := by linarith
  obtain ⟨m, hm⟩ := exists_pow_lt_of_lt_one
    (x := (0.01 : ℚ) / |dropGap e others s obj 0|) (y := 1 - s)
    (div_pos (by norm_num) hg0pos) h1s1
  have hmono : (1 - s) ^ (m + 1) < (0.01 : ℚ) / |dropGap e others s obj 0| := by
    calc (1 - s) ^ (m + 1) = (1 - s) ^ m * (1 - s) := pow_succ (1 - s) m
    _ ≤ (1 - s) ^ m * 1 :=
        mul_le_mul_of_nonneg_left (le_of_lt h1s1) (pow_nonneg h1s0.le m)
    _ = (1 - s) ^ m := mul_one _
    _ < _ := hm
  have hlt : |dropGap e others s obj (m + 1)| < 0.01 := by
    rw [hpow (m + 1), abs_mul, abs_pow, abs_of_pos h1s0]
    calc |dropGap e others s obj 0| * (1 - s) ^ (m + 1)
        < |dropGap e others s obj 0| *
          ((0.01 : ℚ) / |dropGap e others s obj 0|) :=
          mul_lt_mul_of_pos_left hmono hg0pos
    _ = 0.01 := by field_simp
  exact absurd (hstep m).2 (not_le.mpr hlt)

/-- C7 (amended): for every non-dragging object, fixed `target_y` and
drop speed in `(0, 1)`, iterating `update_dropping` reaches, in a bounded
number of steps `N`, a state whose height stays within `0.01` of `target_y`
with every further call returning `false`, while every call before step `N`
returns `true`; when the starting gap exceeds the `0.001` dead band the
height at step `N` is exactly `target_y` (via the snap), and when the start
is already inside the dead band the object never changes at all (its height
is already within `0.01` but is never snapped exactly onto `target_y`, see
the counterexample). -/
theorem C7_drop_convergence (e : PhysicsEngine ℚ)
    (others : List (DeskObject ℚ)) (s : ℚ) (obj : DeskObject ℚ)
    (hd : obj.is_dragging = false) (hs0 : 0 < s) (hs1 : s < 1) :
    ∃ N : ℕ,
      (∀ n, N ≤ n → |dropGap e others s obj n| < 0.01 ∧
        (PhysicsEngine.update_dropping e (dropIter e others s obj n) others
          s).2 = false) ∧
      (∀ n, n < N →
        (PhysicsEngine.update_dropping e (dropIter e others s obj n) others
          s).2 = true) ∧
      (0.001 < |obj.position.y - obj.target_y| →
        ∀ n, N ≤ n →
          (dropIter e others s obj n).position.y = obj.target_y) ∧
      (|obj.position.y - obj.target_y| ≤ 0.001 →
        ∀ n, dropIter e others s obj n = obj) := by
  have hex := drop_reaches e others s obj hd hs0 hs1
  refine ⟨Nat.find hex, ?_, ?_, ?_, ?_⟩
  · intro n hn
    have hNspec : |dropGap e others s obj (Nat.find hex)| ≤ 0.001 :=
      Nat.find_spec hex
    obtain ⟨k, rfl⟩ := Nat.exists_eq_add_of_le hn
    have hfro := dropIter_frozen e others s obj hd (Nat.find hex) hNspec k
    have hgap : dropGap e others s obj (Nat.find hex + k) =
        dropGap e others s obj (Nat.find hex) := by
      unfold dropGap; rw [hfro]
    constructor
    · rw [hgap]; linarith
    · rw [hfro]
      have hf := dropIter_fields e others s obj hd (Nat.find hex)
      have hnoop := drop_noop e (dropIter e others s obj (Nat.find hex))
        others s (Or.inr (by rw [hf.2]; exact hNspec))
      rw [hnoop]
  · intro n hn
    have hmin := Nat.find_min hex hn
    push_neg at hmin
    have hf := dropIter_fields e others s obj hd n
    exact (drop_active e (dropIter e others s obj n) others s hf.1
      (by rw [hf.2]; exact hmin)).1
  · intro hstart n hn
    have hNspec : |dropGap e others s obj (Nat.find hex)| ≤ 0.001 :=
      Nat.find_spec hex
    have hN0 : dropGap e others s obj (Nat.find hex) = 0 := by
      rcases Nat.eq_zero_or_pos (Nat.find hex) with h0 | hpos
      · exfalso
        rw [h0] at hNspec
        have : dropGap e others s obj 0 =
            obj.position.y - obj.target_y := rfl
        rw [this] at hNspec
        exact absurd hNspec (not_le.mpr hstart)
      · obtain ⟨M, hM⟩ : ∃ M, Nat.find hex = M + 1 :=
          ⟨Nat.find hex - 1, by omega⟩
        have hMlt : M < Nat.find hex := by omega
        have hMact := Nat.find_min hex hMlt
        push_neg at hMact
        have hsucc := dropGap_succ e others s obj hd M hMact
        by_cases hsnap : |dropGap e others s obj M * (1 - s)| < 0.01
        · rw [hM, hsucc, if_pos hsnap]
        · exfalso
          have hbig : 0.01 ≤ |dropGap e others s obj (M + 1)| := by
            rw [hsucc, if_neg hsnap]
            exact le_of_not_lt hsnap
          rw [← hM] at hbig
          have := le_trans hbig hNspec
          norm_num at this
    obtain ⟨k, rfl⟩ := Nat.exists_eq_add_of_le hn
    have hfro := dropIter_frozen e others s obj hd (Nat.find hex) hNspec k
    have : dropGap e others s obj (Nat.find hex + k) = 0 := by
      unfold dropGap; rw [hfro]
      unfold dropGap at hN0; exact hN0
    unfold dropGap at this
    linarith
  · intro hsmall n
    exact dropIter_stuck e others s obj hd hsmall n

/-- C7 counterexample: a non-dragging object whose starting height is
`0.0005` away from `target_y` (inside the `0.001` dead band): with drop
speed `1/2 ∈ (0, 1)` the very first `update_dropping` call is the identity
and returns `false`, so the iteration never snaps `position.y` exactly onto
`target_y`, refuting the claimed convergence "to within 0.01 of target_y
(and then exactly to target_y via the snap)" for arbitrary finite starting
heights. -/
theorem C7_counterexample :
    dropStuckObj.is_dragging = false ∧ ((0 : ℚ) < 1/2 ∧ (1/2 : ℚ) < 1) ∧
    PhysicsEngine.update_dropping (engineSpec : PhysicsEngine ℚ) dropStuckObj
      [] (1/2) = (dropStuckObj, false) ∧
    dropStuckObj.position.y ≠ dropStuckObj.target_y := by
  refine ⟨rfl, ⟨by norm_num, by norm_num⟩, ?_, by norm_num [dropStuckObj]⟩
  exact drop_noop engineSpec dropStuckObj [] (1/2)
    (Or.inr (by norm_num [dropStuckObj, abs_le]))

/-- C7 witness: the amended convergence claim applied to a clock one unit
above its target at drop speed `1/2`. -/
theorem C7_drop_convergence_witness :
    ∃ N : ℕ,
      (∀ n, N ≤ n →
        |dropGap (engineSpec : PhysicsEngine ℚ) [] (1/2) dropWitObj n|
            < 0.01 ∧
        (PhysicsEngine.update_dropping engineSpec
          (dropIter engineSpec [] (1/2) dropWitObj n) [] (1/2)).2 = false) ∧
      (∀ n, n < N →
        (PhysicsEngine.update_dropping engineSpec
          (dropIter engineSpec [] (1/2) dropWitObj n) [] (1/2)).2 = true) ∧
      (0.001 < |dropWitObj.position.y - dropWitObj.target_y| →
        ∀ n, N ≤ n →
          (dropIter engineSpec [] (1/2) dropWitObj n).position.y =
            dropWitObj.target_y) ∧
      (|dropWitObj.position.y - dropWitObj.target_y| ≤ 0.001 →
        ∀ n, dropIter engineSpec [] (1/2) dropWitObj n = dropWitObj) :=
  C7_drop_convergence engineSpec [] (1/2) dropWitObj rfl (by norm_num)
    (by norm_num)

theorem sqrt_lt_iff_sq {s c : ℝ} (hc : 0 ≤ c) (hs : 0 ≤ s) :
    Real.sqrt s < c ↔ s < c * c := by
  rcases eq_or_lt_of_le hc with h | h
  · constructor
    · intro habs
      exact absurd habs (not_lt.mpr (h ▸ Real.sqrt_nonneg s))
    · intro habs
      exfalso; nlinarith
  · rw [show c * c = c ^ 2 by ring]
    exact Real.sqrt_lt' h

/-- C9: `check_collision` returns false on identical ids; for distinct ids
with nonnegative effective radii it returns true exactly when the horizontal
(x/z) centre distance is strictly below the sum of the effective radii; the
`y` coordinates of both objects play no role in the outcome. -/
theorem C9_check_collision (e : PhysicsEngine ℝ) (a b : DeskObject ℝ)
    (hra : 0 ≤ effRadius e a) (hrb : 0 ≤ effRadius e b) :
    (a.id = b.id → e.check_collision a b = false) ∧
    (a.id ≠ b.id →
      (e.check_collision a b = true ↔
        Real.sqrt (horizDistSq a.position b.position) <
          effRadius e a + effRadius e b)) ∧
    (∀ y1 y2 : ℝ, e.check_collision (a.withY y1) (b.withY y2) =
      e.check_collision a b) := by
  refine ⟨?_, ?_, ?_⟩
  · intro h
    unfold PhysicsEngine.check_collision
    rw [if_pos h]
  · intro h
    unfold PhysicsEngine.check_collision
    rw [if_neg h]
    dsimp only
    rw [decide_eq_true_eq]
    have hsq : 0 ≤ (a.position.x - b.position.x) * (a.position.x - b.position.x)
        + (a.position.z - b.position.z) * (a.position.z - b.position.z) := by
      nlinarith [sq_nonneg (a.position.x - b.position.x),
        sq_nonneg (a.position.z - b.position.z)]
    have hb := sqrt_lt_iff_sq (add_nonneg hra hrb) hsq
    unfold horizDistSq effRadius at hb ⊢
    exact (Iff.symm hb)
  · intro y1 y2
    rfl

/-- C9 witness: two distinct clocks of effective radius `0.2` whose centres
are `0.3` apart collide (the spec's Scenario 1). -/
theorem C9_check_collision_witness :
    PhysicsEngine.check_collision (engineSpec : PhysicsEngine ℝ) collObjA
      collObjB = true := by
  have h := (C9_check_collision engineSpec collObjA collObjB
    (by norm_num [effRadius, collObjA, DeskObject.collision_radius,
      engineSpec])
    (by norm_num [effRadius, collObjB, DeskObject.collision_radius,
      engineSpec])).2.1 (by norm_num [collObjA, collObjB])
  refine h.mpr ?_
  have h9 : horizDistSq collObjA.position collObjB.position = (0.3 : ℝ) ^ 2 := by
    norm_num [horizDistSq, collObjA, collObjB]
  rw [h9, Real.sqrt_sq (by norm_num)]
  norm_num [effRadius, collObjA, collObjB, DeskObject.collision_radius,
    engineSpec]

open Classical in
theorem pickStep_eq (ro rw : Vec3 ℝ) (acc : Option (ℝ × ℕ))
    (o : DeskObject ℝ) :
    pickStep ro rw acc o =
      if ValidPick ro rw o then
        match acc with
        | none => some (pickT ro rw o, o.id)
        | some b =>
            if pickT ro rw o < b.1 then some (pickT ro rw o, o.id) else acc
      else acc := by
  unfold pickStep ValidPick pickT pickDist
  dsimp only
  by_cases h1 : (o.position.sub ro).dot rw < 0
  · rw [if_pos h1, if_neg]
    rintro ⟨h0, -⟩
    exact absurd h1 (not_lt.mpr h0)
  · rw [if_neg h1]
    by_cases h2 : Real.sqrt
        (((ro.add (rw.scale ((o.position.sub ro).dot rw))).sub
          o.position).dot
          ((ro.add (rw.scale ((o.position.sub ro).dot rw))).sub o.position))
        < o.collision_radius * 1.5
    · rw [if_pos h2, if_pos ⟨not_lt.mp h1, h2⟩]
    · rw [if_neg h2, if_neg]
      rintro ⟨-, hd⟩
      exact h2 hd

theorem pickFold_inv (ro rw : Vec3 ℝ) :
    ∀ (l P : List (DeskObject ℝ)) (acc : Option (ℝ × ℕ)),
      ((acc = none ↔ ∀ o ∈ P, ¬ ValidPick ro rw o) ∧
       (∀ bt bid, acc = some (bt, bid) →
         ∃ o ∈ P, o.id = bid ∧ pickT ro rw o = bt ∧ ValidPick ro rw o ∧
           ∀ o2 ∈ P, ValidPick ro rw o2 → bt ≤ pickT ro rw o2)) →
      ((List.foldl (pickStep ro rw) acc l = none ↔
          ∀ o ∈ P ++ l, ¬ ValidPick ro rw o) ∧
       (∀ bt bid, List.foldl (pickStep ro rw) acc l = some (bt, bid) →
         ∃ o ∈ P ++ l, o.id = bid ∧ pickT ro rw o = bt ∧
           ValidPick ro rw o ∧
           ∀ o2 ∈ P ++ l, ValidPick ro rw o2 → bt ≤ pickT ro rw o2)) := by
  intro l
  induction l with
  | nil =>
      intro P acc h
      simpa using h
  | cons o l ih =>
      intro P acc h
      have hmemo : o ∈ P ++ [o] :=
        List.mem_append_right _ (List.mem_singleton.mpr rfl)
      have hstep :
          ((pickStep ro rw acc o = none ↔
            ∀ o2 ∈ P ++ [o], ¬ ValidPick ro rw o2) ∧
           (∀ bt bid, pickStep ro rw acc o = some (bt, bid) →
             ∃ o2 ∈ P ++ [o], o2.id = bid ∧ pickT ro rw o2 = bt ∧
               ValidPick ro rw o2 ∧
               ∀ o3 ∈ P ++ [o], ValidPick ro rw o3 →
                 bt ≤ pickT ro rw o3)) := by
        rw [pickStep_eq]
        by_cases hv : ValidPick ro rw o
        · rw [if_pos hv]
          match acc, h with
          | none, h =>
              dsimp only
              constructor
              · simp only [reduceCtorEq, false_iff]
                intro hall
                exact hall o hmemo hv
              · intro bt bid hsome
                rw [Option.some_inj, Prod.mk.injEq] at hsome
                obtain ⟨h1, h2⟩ := hsome
                refine ⟨o, hmemo, h2, h1, hv, ?_⟩
                intro o3 h3 hv3
                rcases List.mem_append.mp h3 with h3 | h3
                · exact ((h.1.mp rfl) o3 h3 hv3).elim
                · rw [List.mem_singleton] at h3
                  subst h3
                  rw [← h1]
          | some b, h =>
              dsimp only
              obtain ⟨ob, hob, hobid, hobT, hobval, hobmin⟩ :=
                h.2 b.1 b.2 rfl
              by_cases hlt : pickT ro rw o < b.1
              · rw [if_pos hlt]
                constructor
                · simp only [reduceCtorEq, false_iff]
                  intro hall
                  exact hall o hmemo hv
                · intro bt bid hsome
                  rw [Option.some_inj, Prod.mk.injEq] at hsome
                  obtain ⟨h1, h2⟩ := hsome
                  refine ⟨o, hmemo, h2, h1, hv, ?_⟩
                  intro o3 h3 hv3
                  rcases List.mem_append.mp h3 with h3 | h3
                  · have := hobmin o3 h3 hv3
                    rw [← h1]
                    linarith
                  · rw [List.mem_singleton] at h3
                    subst h3
                    rw [← h1]
              · rw [if_neg hlt]
                constructor
                · simp only [reduceCtorEq, false_iff]
                  intro hall
                  exact hall o hmemo hv
                · intro bt bid hsome
                  have hb1 : b.1 = bt := by
                    rw [Option.some_inj] at hsome
                    rw [hsome]
                  obtain ⟨o1, ho1, hid, hT, hval, hmin1⟩ :=
                    h.2 bt bid hsome
                  refine ⟨o1, List.mem_append_left _ ho1, hid, hT, hval, ?_⟩
                  intro o3 h3 hv3
                  rcases List.mem_append.mp h3 with h3 | h3
                  · exact hmin1 o3 h3 hv3
                  · rw [List.mem_singleton] at h3
                    subst h3
                    rw [← hb1]
                    exact le_of_not_lt hlt
        · rw [if_neg hv]
          constructor
          · rw [h.1]
            constructor
            · intro hall o2 h2
              rcases List.mem_append.mp h2 with h2 | h2
              · exact hall o2 h2
              · rw [List.mem_singleton] at h2
                subst h2
                exact hv
            · intro hall o2 h2
              exact hall o2 (List.mem_append_left _ h2)
          · intro bt bid hsome
            obtain ⟨o1, ho1, hid, hT, hval, hmin1⟩ := h.2 bt bid hsome
            refine ⟨o1, List.mem_append_left _ ho1, hid, hT, hval, ?_⟩
            intro o3 h3 hv3
            rcases List.mem_append.mp h3 with h3 | h3
            · exact hmin1 o3 h3 hv3
            · rw [List.mem_singleton] at h3
              subst h3
              exact absurd hv3 hv
      have hres := ih (P ++ [o]) (pickStep ro rw acc o) hstep
      rw [List.foldl_cons]
      simpa [List.append_assoc] using hres

/-- C8: the picking scan treats an object as a valid candidate exactly when
its ray parameter `t = dot(position − ray_origin, ray_direction)` is not
negative and the distance from the ray point at `t` to its centre is
strictly below `collision_radius × 1.5`; it returns `none` exactly when no
object is valid (in particular when `t < 0` for every object), and any
returned id belongs to a valid object whose `t` is minimal among all valid
candidates. -/
theorem C8_picking (objects : List (DeskObject ℝ)) (ro rw : Vec3 ℝ) :
    (find_object_at objects ro rw = none ↔
      ∀ o ∈ objects, ¬ ValidPick ro rw o) ∧
    (∀ id, find_object_at objects ro rw = some id →
      ∃ o ∈ objects, o.id = id ∧ ValidPick ro rw o ∧
        ∀ o2 ∈ objects, ValidPick ro rw o2 →
          pickT ro rw o ≤ pickT ro rw o2) ∧
    ((∀ o ∈ objects, pickT ro rw o < 0) →
      find_object_at objects ro rw = none) := by
  have hinv := pickFold_inv ro rw objects [] none
    (by
      constructor
      · simp
      · intro bt bid h
        cases h)
  rw [List.nil_append] at hinv
  refine ⟨?_, ?_, ?_⟩
  · unfold find_object_at
    rw [Option.map_eq_none']
    exact hinv.1
  · intro id h
    unfold find_object_at at h
    rw [Option.map_eq_some'] at h
    obtain ⟨⟨bt, bid⟩, hfold, hsnd⟩ := h
    obtain ⟨o, ho, hid, hT, hval, hmin⟩ := hinv.2 bt bid hfold
    refine ⟨o, ho, by rw [hid]; exact hsnd, hval, ?_⟩
    intro o2 ho2 hv2
    rw [hT]
    exact hmin o2 ho2 hv2
  · intro hneg
    unfold find_object_at
    rw [Option.map_eq_none']
    rw [hinv.1]
    intro o ho hv
    exact absurd hv.1 (not_le.mpr (hneg o ho))

/-- C8 witness: a ray pointing away from the only object (`t = −1 < 0`)
returns no candidate (the spec's Scenario 5). -/
theorem C8_picking_witness :
    find_object_at [pickBehindObj] ⟨0, 0, 0⟩ ⟨1, 0, 0⟩ = none :=
  (C8_picking [pickBehindObj] ⟨0, 0, 0⟩ ⟨1, 0, 0⟩).2.2 (by
    intro o ho
    rw [List.mem_singleton] at ho
    subst ho
    norm_num [pickT, pickBehindObj, Vec3.sub, Vec3.dot])

theorem clamp_to_desk_y {α : Type} [LinearOrderedField α]
    (e : PhysicsEngine α) (p : Vec3 α) (r : α) (q : Vec3 α)
    (h : e.clamp_to_desk p r = some q) : q.y = p.y := by
  unfold PhysicsEngine.clamp_to_desk at h
  rcases hx : rustClamp p.x (e.bounds_min_x + r) (e.bounds_max_x - r) with
    _ | cx
  · rw [hx] at h; cases h
  · rcases hz : rustClamp p.z (e.bounds_min_z + r) (e.bounds_max_z - r) with
      _ | cz
    · rw [hx, hz] at h; cases h
    · rw [hx, hz] at h
      rw [Option.some_inj] at h
      rw [← h]

theorem pushStep_y (e : PhysicsEngine ℝ) (object : DeskObject ℝ)
    (pos : Vec3 ℝ) (other : DeskObject ℝ) :
    (pushStep e object pos other).y = pos.y := by
  unfold pushStep
  dsimp only
  split_ifs <;> rfl

theorem pushFold_y (e : PhysicsEngine ℝ) (object : DeskObject ℝ) :
    ∀ (l : List (DeskObject ℝ)) (pos : Vec3 ℝ),
      (l.foldl (pushStep e object) pos).y = pos.y
  | [], _ => rfl
  | o :: l, pos => by
      rw [List.foldl_cons, pushFold_y e object l (pushStep e object pos o),
        pushStep_y]

/-- C10: whenever `find_valid_position` returns a position (its clamp range
is non-empty), that position's `y` coordinate is exactly the target's `y`:
the desk clamps and all collision pushes touch only `x` and `z`. -/
theorem C10_find_valid_position_y (e : PhysicsEngine ℝ) (target : Vec3 ℝ)
    (object : DeskObject ℝ) (others : List (DeskObject ℝ)) (p : Vec3 ℝ)
    (h : e.find_valid_position target object others = some p) :
    p.y = target.y := by
  unfold PhysicsEngine.find_valid_position at h
  dsimp only at h
  rcases hc : e.clamp_to_desk target
      (object.collision_radius * e.collision_radius_multiplier) with
    _ | start
  · rw [hc] at h; cases h
  · rw [hc] at h
    dsimp only at h
    have h1 := clamp_to_desk_y e _ _ p h
    rw [h1, pushFold_y, clamp_to_desk_y e _ _ start hc]

/-- C10 witness: the frame property applied at the modelled engine to a
clock with empty surroundings; the returned position exists and keeps the
target height `2`. -/
theorem C10_find_valid_position_y_witness :
    ∃ p : Vec3 ℝ, PhysicsEngine.find_valid_position engineSpec ⟨1, 2, -1⟩
      frameObj [] = some p ∧ p.y = 2 := by
  have h1 : PhysicsEngine.clamp_to_desk (engineSpec : PhysicsEngine ℝ)
      ⟨1, 2, -1⟩ (frameObj.collision_radius *
        (engineSpec : PhysicsEngine ℝ).collision_radius_multiplier) =
      some ⟨1, 2, -1⟩ := by
    rw [clamp_to_desk_eq] <;>
      norm_num [clampTotal, engineSpec, frameObj,
        DeskObject.collision_radius]
  have heval : PhysicsEngine.find_valid_position engineSpec ⟨1, 2, -1⟩
      frameObj [] = some ⟨1, 2, -1⟩ := by
    unfold PhysicsEngine.find_valid_position
    dsimp only
    rw [h1]
    dsimp only
    exact h1
  exact ⟨⟨1, 2, -1⟩, heval,
    C10_find_valid_position_y engineSpec ⟨1, 2, -1⟩ frameObj [] ⟨1, 2, -1⟩
      heval⟩

theorem clampTotal_of_mem {α : Type} [LinearOrderedField α] {x lo hi : α}
    (h1 : lo ≤ x) (h2 : x ≤ hi) : clampTotal x lo hi = x := by
  unfold clampTotal
  split_ifs with ha hb
  · linarith
  · linarith
  · rfl

theorem clamp_to_desk_self {α : Type} [LinearOrderedField α]
    (e : PhysicsEngine α) (p : Vec3 α) (r : α)
    (hx1 : e.bounds_min_x + r ≤ p.x) (hx2 : p.x ≤ e.bounds_max_x - r)
    (hz1 : e.bounds_min_z + r ≤ p.z) (hz2 : p.z ≤ e.bounds_max_z - r) :
    e.clamp_to_desk p r = some p := by
  rw [clamp_to_desk_eq e p r (le_trans hx1 hx2) (le_trans hz1 hz2),
    clampTotal_of_mem hx1 hx2, clampTotal_of_mem hz1 hz2]

theorem pushStep_push (e : PhysicsEngine ℝ) (object other : DeskObject ℝ)
    (ct : Vec3 ℝ) (hid : other.id ≠ object.id)
    (hover : Real.sqrt (horizDistSq ct other.position) <
      effRadius e object + effRadius e other)
    (hguard : Real.sqrt (horizDistSq ct other.position) > 0.001) :
    pushStep e object ct other =
      ⟨ct.x + (ct.x - other.position.x) /
          Real.sqrt (horizDistSq ct other.position) *
          (effRadius e object + effRadius e other -
            Real.sqrt (horizDistSq ct other.position) + 0.05),
        ct.y,
        ct.z + (ct.z - other.position.z) /
          Real.sqrt (horizDistSq ct other.position) *
          (effRadius e object + effRadius e other -
            Real.sqrt (horizDistSq ct other.position) + 0.05)⟩ := by
  unfold horizDistSq at hguard
  unfold horizDistSq effRadius at hover ⊢
  unfold pushStep
  dsimp only
  rw [if_neg hid, if_pos ⟨hover, hguard⟩]

/-- C5 counterexample: a target inside the desk whose clamped candidate
overlaps exactly one other object with coincident centre: the
`dist > 0.001` guard skips the push, and the returned position still
collides with that object (horizontal distance `0`, strictly below the
radius sum `0.6`), refuting the claimed separation. -/
theorem C5_counterexample :
    PhysicsEngine.is_on_desk (engineSpec : PhysicsEngine ℝ) ⟨1, 1.25, 1⟩
      = true ∧
    PhysicsEngine.check_collision (engineSpec : PhysicsEngine ℝ) fvObj
      fvOther = true ∧
    PhysicsEngine.find_valid_position engineSpec ⟨1, 1.25, 1⟩ fvObj [fvOther]
      = some ⟨1, 1.25, 1⟩ ∧
    Real.sqrt (horizDistSq (⟨1, 1.25, 1⟩ : Vec3 ℝ) fvOther.position) <
      effRadius engineSpec fvObj + effRadius engineSpec fvOther := by
  have hclamp : PhysicsEngine.clamp_to_desk (engineSpec : PhysicsEngine ℝ)
      ⟨1, 1.25, 1⟩ (fvObj.collision_radius *
        (engineSpec : PhysicsEngine ℝ).collision_radius_multiplier) =
      some ⟨1, 1.25, 1⟩ := by
    rw [clamp_to_desk_eq] <;>
      norm_num [clampTotal, engineSpec, fvObj, DeskObject.collision_radius]
  have hd : Real.sqrt ((1 - fvOther.position.x) * (1 - fvOther.position.x) +
      (1 - fvOther.position.z) * (1 - fvOther.position.z) : ℝ) = 0 := by
    norm_num [fvOther, Real.sqrt_zero]
  have hstep : pushStep engineSpec fvObj ⟨1, 1.25, 1⟩ fvOther =
      ⟨1, 1.25, 1⟩ := by
    unfold pushStep
    dsimp only
    rw [if_neg (by norm_num [fvObj, fvOther]), if_neg (fun hc => by
      rw [hd] at hc
      exact absurd hc.2 (by norm_num))]
  refine ⟨?_, ?_, ?_, ?_⟩
  · simp only [PhysicsEngine.is_on_desk, Bool.and_eq_true, decide_eq_true_eq]
    norm_num [engineSpec]
  · unfold PhysicsEngine.check_collision
    rw [if_neg (by norm_num [fvObj, fvOther])]
    dsimp only
    rw [decide_eq_true_eq]
    norm_num [fvObj, fvOther, DeskObject.collision_radius, engineSpec]
  · unfold PhysicsEngine.find_valid_position
    dsimp only
    rw [hclamp]
    dsimp only
    rw [List.foldl_cons, hstep, List.foldl_nil]
    exact hclamp
  · have h0 : horizDistSq (⟨1, 1.25, 1⟩ : Vec3 ℝ) fvOther.position = 0 := by
      norm_num [horizDistSq, fvOther]
    rw [h0, Real.sqrt_zero]
    norm_num [effRadius, fvObj, fvOther, DeskObject.collision_radius,
      engineSpec]

/-- C5 (amended): when the clamped candidate overlaps the single other
object, the centres are more than `0.001` apart (the push guard), and the
pushed position stays inside the clamp range (so the final re-clamp is the
identity), `find_valid_position` returns the pushed position: its horizontal
distance to the other object's centre is exactly the radius sum plus `0.05`,
hence at least the sum of effective radii (no residual collision), and it
lies within the desk bounds.  Without those two extra hypotheses the claim
fails: see the counterexample (coincident centres) and the re-clamp remark
in its documentation. -/
theorem C5_push_resolves (e : PhysicsEngine ℝ) (target ct : Vec3 ℝ)
    (object other : DeskObject ℝ) (px pz : ℝ)
    (hid : other.id ≠ object.id)
    (hr : 0 ≤ effRadius e object) (_hro : 0 ≤ effRadius e other)
    (hclamp : e.clamp_to_desk target (effRadius e object) = some ct)
    (hguard : Real.sqrt (horizDistSq ct other.position) > 0.001)
    (hover : Real.sqrt (horizDistSq ct other.position) <
      effRadius e object + effRadius e other)
    (hpx : px = ct.x + (ct.x - other.position.x) /
      Real.sqrt (horizDistSq ct other.position) *
      (effRadius e object + effRadius e other -
        Real.sqrt (horizDistSq ct other.position) + 0.05))
    (hpz : pz = ct.z + (ct.z - other.position.z) /
      Real.sqrt (horizDistSq ct other.position) *
      (effRadius e object + effRadius e other -
        Real.sqrt (horizDistSq ct other.position) + 0.05))
    (hx1 : e.bounds_min_x + effRadius e object ≤ px)
    (hx2 : px ≤ e.bounds_max_x - effRadius e object)
    (hz1 : e.bounds_min_z + effRadius e object ≤ pz)
    (hz2 : pz ≤ e.bounds_max_z - effRadius e object) :
    e.find_valid_position target object [other] = some ⟨px, ct.y, pz⟩ ∧
    Real.sqrt (horizDistSq (⟨px, ct.y, pz⟩ : Vec3 ℝ) other.position) =
      effRadius e object + effRadius e other + 0.05 ∧
    effRadius e object + effRadius e other ≤
      Real.sqrt (horizDistSq (⟨px, ct.y, pz⟩ : Vec3 ℝ) other.position) ∧
    e.is_on_desk ⟨px, ct.y, pz⟩ = true := by
  have hsqnn : 0 ≤ horizDistSq ct other.position := by
    unfold horizDistSq
    nlinarith [sq_nonneg (ct.x - other.position.x),
      sq_nonneg (ct.z - other.position.z)]
  set d := Real.sqrt (horizDistSq ct other.position) with hdDef
  have hdpos : 0 < d := lt_trans (by norm_num) hguard
  have hdd : d * d = horizDistSq ct other.position := Real.mul_self_sqrt hsqnn
  have hK : (0 : ℝ) ≤ effRadius e object + effRadius e other + 0.05 := by
    linarith
  have hdist : horizDistSq (⟨px, ct.y, pz⟩ : Vec3 ℝ) other.position =
      (effRadius e object + effRadius e other + 0.05) ^ 2 := by
    have hXX : px - other.position.x = (ct.x - other.position.x) *
        ((effRadius e object + effRadius e other + 0.05) / d) := by
      rw [hpx]
      field_simp
      ring
    have hZZ : pz - other.position.z = (ct.z - other.position.z) *
        ((effRadius e object + effRadius e other + 0.05) / d) := by
      rw [hpz]
      field_simp
      ring
    unfold horizDistSq at hdd ⊢
    dsimp only
    calc (px - other.position.x) * (px - other.position.x) +
        (pz - other.position.z) * (pz - other.position.z)
        = ((ct.x - other.position.x) * (ct.x - other.position.x) +
            (ct.z - other.position.z) * (ct.z - other.position.z)) *
          ((effRadius e object + effRadius e other + 0.05) / d) ^ 2 := by
          rw [hXX, hZZ]; ring
      _ = (d * d) *
          ((effRadius e object + effRadius e other + 0.05) / d) ^ 2 := by
          rw [hdd]
      _ = (effRadius e object + effRadius e other + 0.05) ^ 2 := by
          field_simp
          ring
  have hpush := pushStep_push e object other ct hid hover hguard
  rw [← hdDef] at hpush
  refine ⟨?_, ?_, ?_, ?_⟩
  · have hfinal : e.clamp_to_desk ⟨px, ct.y, pz⟩ (effRadius e object) =
        some ⟨px, ct.y, pz⟩ :=
      clamp_to_desk_self e ⟨px, ct.y, pz⟩ (effRadius e object) hx1 hx2 hz1 hz2
    unfold PhysicsEngine.find_valid_position
    dsimp only
    unfold effRadius at hclamp
    rw [hclamp]
    dsimp only
    rw [List.foldl_cons, hpush, List.foldl_nil, ← hpx, ← hpz]
    unfold effRadius at hfinal
    exact hfinal
  · rw [hdist, Real.sqrt_sq hK]
  · rw [hdist, Real.sqrt_sq hK]
    linarith
  · simp only [PhysicsEngine.is_on_desk, Bool.and_eq_true, decide_eq_true_eq]
    refine ⟨⟨⟨?_, ?_⟩, ?_⟩, ?_⟩ <;> dsimp only <;> linarith

/-- C5 witness: the amended claim applied to two lamps of effective radius
`0.3` whose clamped candidate sits `0.5` from the other's centre: the push
lands at `(0.39, 1, 0.52)`, exactly `0.65` from the other object. -/
theorem C5_push_resolves_witness :
    PhysicsEngine.find_valid_position engineSpec ⟨0.3, 1, 0.4⟩ fvWitObj
      [fvWitOther] = some ⟨0.39, 1, 0.52⟩ ∧
    Real.sqrt (horizDistSq (⟨0.39, 1, 0.52⟩ : Vec3 ℝ) fvWitOther.position) =
      effRadius engineSpec fvWitObj + effRadius engineSpec fvWitOther +
        0.05 ∧
    effRadius engineSpec fvWitObj + effRadius engineSpec fvWitOther ≤
      Real.sqrt
        (horizDistSq (⟨0.39, 1, 0.52⟩ : Vec3 ℝ) fvWitOther.position) ∧
    PhysicsEngine.is_on_desk (engineSpec : PhysicsEngine ℝ) ⟨0.39, 1, 0.52⟩
      = true := by
  have hsd : Real.sqrt (horizDistSq (⟨0.3, 1, 0.4⟩ : Vec3 ℝ)
      fvWitOther.position) = 0.5 := by
    have h25 : horizDistSq (⟨0.3, 1, 0.4⟩ : Vec3 ℝ) fvWitOther.position
        = 0.25 := by norm_num [horizDistSq, fvWitOther]
    rw [h25, show (0.25 : ℝ) = 0.5 ^ 2 by norm_num,
      Real.sqrt_sq (by norm_num)]
  exact C5_push_resolves engineSpec ⟨0.3, 1, 0.4⟩ ⟨0.3, 1, 0.4⟩ fvWitObj
    fvWitOther 0.39 0.52
    (by norm_num [fvWitObj, fvWitOther])
    (by norm_num [effRadius, fvWitObj, DeskObject.collision_radius,
      engineSpec])
    (by norm_num [effRadius, fvWitOther, DeskObject.collision_radius,
      engineSpec])
    (clamp_to_desk_self engineSpec ⟨0.3, 1, 0.4⟩ _
      (by norm_num [effRadius, fvWitObj, DeskObject.collision_radius,
        engineSpec])
      (by norm_num [effRadius, fvWitObj, DeskObject.collision_radius,
        engineSpec])
      (by norm_num [effRadius, fvWitObj, DeskObject.collision_radius,
        engineSpec])
      (by norm_num [effRadius, fvWitObj, DeskObject.collision_radius,
        engineSpec]))
    (by rw [hsd]; norm_num)
    (by rw [hsd]; norm_num [effRadius, fvWitObj, fvWitOther,
      DeskObject.collision_radius, engineSpec])
    (by rw [hsd]; norm_num [effRadius, fvWitObj, fvWitOther,
      DeskObject.collision_radius, engineSpec])
    (by rw [hsd]; norm_num [effRadius, fvWitObj, fvWitOther,
      DeskObject.collision_radius, engineSpec])
    (by norm_num [effRadius, fvWitObj, DeskObject.collision_radius,
      engineSpec])
    (by norm_num [effRadius, fvWitObj, DeskObject.collision_radius,
      engineSpec])
    (by norm_num [effRadius, fvWitObj, DeskObject.collision_radius,
      engineSpec])
    (by norm_num [effRadius, fvWitObj, DeskObject.collision_radius,
      engineSpec])

theorem move_step_eval (e : PhysicsEngine ℝ) (s : SimState) (id : ℕ)
    (ro rw inter : Vec3 ℝ)
    (hdrag : s.dragging_object_id = some id)
    (hint : ray_plane_intersection ro rw ⟨0, e.desk_surface_y + 0.5, 0⟩
      ⟨0, 1, 0⟩ = some inter) :
    step e s (.move ro rw) =
      { s with objects := updateById s.objects id (fun o =>
          { o with position :=
            ⟨clampTotal inter.x (-4.5) 4.5, e.desk_surface_y + 0.5,
              clampTotal inter.z (-3.0) 3.0⟩ }) } := by
  unfold step
  dsimp only
  rw [hint, hdrag]

theorem move_ray_eval :
    ray_plane_intersection (⟨4.7, 2.25, 0⟩ : Vec3 ℝ) ⟨0, -1, 0⟩
      ⟨0, (engineSpec : PhysicsEngine ℝ).desk_surface_y + 0.5, 0⟩
      ⟨0, 1, 0⟩ = some ⟨4.7, 1.25, 0⟩ := by
  unfold ray_plane_intersection Vec3.dot Vec3.sub Vec3.add Vec3.scale
  norm_num [engineSpec]

/-- C2 (amended): on a move event while an object is being dragged and the
drag-plane intersection exists, the move handler (`update_drag` /
`update_drag_crosshair`) sets the dragged object's `x` to the intersection's
`x` clamped to the fixed interval `[-4.5, 4.5]`, its `z` clamped to
`[-3, 3]`, and its `y` to the plane height `desk_surface_y + 0.5`,
independent of the object's collision radius and of `original_y`; other
objects and the active drag id are unchanged.
(`PhysicsEngine::update_dragging`, whose contract the original claim states,
is not called by the handler — see the counterexample.) -/
theorem C2_move_step (e : PhysicsEngine ℝ) (s : SimState) (id : ℕ)
    (ro rw inter : Vec3 ℝ)
    (hdrag : s.dragging_object_id = some id)
    (hint : ray_plane_intersection ro rw ⟨0, e.desk_surface_y + 0.5, 0⟩
      ⟨0, 1, 0⟩ = some inter) :
    (step e s (.move ro rw)).objects = updateById s.objects id (fun o =>
      { o with position :=
        ⟨clampTotal inter.x (-4.5) 4.5, e.desk_surface_y + 0.5,
          clampTotal inter.z (-3.0) 3.0⟩ }) ∧
    (step e s (.move ro rw)).dragging_object_id = s.dragging_object_id := by
  rw [move_step_eval e s id ro rw inter hdrag hint]
  exact ⟨rfl, rfl⟩

/-- C2 counterexample: at drag-plane intersection `x = 4.7` the move handler
stores `x = 4.5` (fixed constant) and `y = 1.25` (the plane height), both
for an object with `original_y = 2` and for one with `original_y = 7`,
whereas `clamp_to_desk` at the object's radius `0.2` yields `x = 4.3`: the
stored `x` is not the radius-aware clamp, and no fixed lift height satisfies
`y = original_y + lift` for both objects. -/
theorem C2_counterexample :
    ((step engineSpec ⟨[moveObjLow], some 1⟩
        (.move ⟨4.7, 2.25, 0⟩ ⟨0, -1, 0⟩)).objects.map
      (fun o => o.position)) = [⟨4.5, 1.25, 0⟩] ∧
    ((step engineSpec ⟨[moveObjHigh], some 1⟩
        (.move ⟨4.7, 2.25, 0⟩ ⟨0, -1, 0⟩)).objects.map
      (fun o => o.position)) = [⟨4.5, 1.25, 0⟩] ∧
    PhysicsEngine.clamp_to_desk (engineSpec : PhysicsEngine ℝ)
      ⟨4.7, 1.25, 0⟩ moveObjLow.collision_radius = some ⟨4.3, 1.25, 0⟩ ∧
    (4.5 : ℝ) ≠ 4.3 ∧
    (1.25 : ℝ) - moveObjLow.original_y ≠ 1.25 - moveObjHigh.original_y := by
  refine ⟨?_, ?_, ?_, by norm_num, by norm_num [moveObjLow, moveObjHigh]⟩
  · rw [move_step_eval engineSpec ⟨[moveObjLow], some 1⟩ 1
      ⟨4.7, 2.25, 0⟩ ⟨0, -1, 0⟩ ⟨4.7, 1.25, 0⟩ rfl move_ray_eval]
    norm_num [updateById, moveObjLow, clampTotal, engineSpec]
  · rw [move_step_eval engineSpec ⟨[moveObjHigh], some 1⟩ 1
      ⟨4.7, 2.25, 0⟩ ⟨0, -1, 0⟩ ⟨4.7, 1.25, 0⟩ rfl move_ray_eval]
    norm_num [updateById, moveObjHigh, clampTotal, engineSpec]
  · rw [clamp_to_desk_eq] <;>
      norm_num [clampTotal, engineSpec, moveObjLow,
        DeskObject.collision_radius]

/-- C2 witness: the amended move-step behaviour applied to the dragged clock
with `original_y = 2` at intersection `(4.7, 1.25, 0)`. -/
theorem C2_move_step_witness :
    (step engineSpec ⟨[moveObjLow], some 1⟩
        (.move ⟨4.7, 2.25, 0⟩ ⟨0, -1, 0⟩)).objects =
      updateById [moveObjLow] 1 (fun o =>
        { o with position :=
          ⟨clampTotal (⟨4.7, 1.25, 0⟩ : Vec3 ℝ).x (-4.5) 4.5,
            (engineSpec : PhysicsEngine ℝ).desk_surface_y + 0.5,
            clampTotal (⟨4.7, 1.25, 0⟩ : Vec3 ℝ).z (-3.0) 3.0⟩ }) ∧
    (step engineSpec ⟨[moveObjLow], some 1⟩
        (.move ⟨4.7, 2.25, 0⟩ ⟨0, -1, 0⟩)).dragging_object_id =
      (⟨[moveObjLow], some 1⟩ : SimState).dragging_object_id :=
  C2_move_step engineSpec ⟨[moveObjLow], some 1⟩ 1 ⟨4.7, 2.25, 0⟩
    ⟨0, -1, 0⟩ ⟨4.7, 1.25, 0⟩ rfl move_ray_eval

theorem sqrt_four : Real.sqrt (4 : ℝ) = 2 := by
  rw [show (4 : ℝ) = 2 ^ 2 by norm_num, Real.sqrt_sq (by norm_num)]

theorem pickA_ray1 :
    pickStep ⟨0, 0, 0⟩ ⟨1, 0, 0⟩ none pickObjA = some (2, 1) := by
  unfold pickStep Vec3.sub Vec3.dot Vec3.add Vec3.scale
  norm_num [pickObjA, DeskObject.collision_radius, Real.sqrt_zero]

theorem pickB_ray1 :
    pickStep ⟨0, 0, 0⟩ ⟨1, 0, 0⟩ (some (2, 1)) pickObjB = some (2, 1) := by
  unfold pickStep Vec3.sub Vec3.dot Vec3.add Vec3.scale
  norm_num [pickObjB, DeskObject.collision_radius, sqrt_four]

theorem pickA_ray2 :
    pickStep ⟨0, 0, 0⟩ ⟨0, 0, 1⟩ none
      { pickObjA with is_dragging := true } = none := by
  unfold pickStep Vec3.sub Vec3.dot Vec3.add Vec3.scale
  norm_num [pickObjA, DeskObject.collision_radius, sqrt_four]

theorem pickB_ray2 :
    pickStep ⟨0, 0, 0⟩ ⟨0, 0, 1⟩ none pickObjB = some (2, 2) := by
  unfold pickStep Vec3.sub Vec3.dot Vec3.add Vec3.scale
  norm_num [pickObjB, DeskObject.collision_radius, Real.sqrt_zero]

theorem find_ray1 :
    find_object_at [pickObjA, pickObjB] ⟨0, 0, 0⟩ ⟨1, 0, 0⟩ = some 1 := by
  unfold find_object_at
  rw [List.foldl_cons, pickA_ray1, List.foldl_cons, pickB_ray1,
    List.foldl_nil]
  rfl

theorem find_ray2 :
    find_object_at [{ pickObjA with is_dragging := true }, pickObjB]
      ⟨0, 0, 0⟩ ⟨0, 0, 1⟩ = some 2 := by
  unfold find_object_at
  rw [List.foldl_cons, pickA_ray2, List.foldl_cons, pickB_ray2,
    List.foldl_nil]
  rfl

/-- C1 failing trace: from an initial state (no active drag, both dragging
flags clear), a pick-down along the x axis picks clock 1; a second
pick-down along the z axis while clock 1 is still being dragged is not
ignored: the handler marks clock 2 as dragging too and overwrites the
active id, leaving two objects with `is_dragging = true` (clock 1 orphaned
with its flag stuck). -/
theorem C1_double_drag :
    InitState ⟨[pickObjA, pickObjB], none⟩ ∧
    run engineSpec ⟨[pickObjA, pickObjB], none⟩
        [.pickDown ⟨0, 0, 0⟩ ⟨1, 0, 0⟩, .pickDown ⟨0, 0, 0⟩ ⟨0, 0, 1⟩] =
      ⟨[{ pickObjA with is_dragging := true },
        { pickObjB with is_dragging := true }], some 2⟩ ∧
    dragCount [{ pickObjA with is_dragging := true },
      { pickObjB with is_dragging := true }] = 2 := by
  have hs1 : step engineSpec ⟨[pickObjA, pickObjB], none⟩
      (.pickDown ⟨0, 0, 0⟩ ⟨1, 0, 0⟩) =
      ⟨[{ pickObjA with is_dragging := true }, pickObjB], some 1⟩ := by
    unfold step
    dsimp only
    rw [find_ray1]
    norm_num [updateById, pickObjA, pickObjB]
  have hs2 : step engineSpec
      ⟨[{ pickObjA with is_dragging := true }, pickObjB], some 1⟩
      (.pickDown ⟨0, 0, 0⟩ ⟨0, 0, 1⟩) =
      ⟨[{ pickObjA with is_dragging := true },
        { pickObjB with is_dragging := true }], some 2⟩ := by
    unfold step
    dsimp only
    rw [find_ray2]
    norm_num [updateById, pickObjA, pickObjB]
  refine ⟨⟨rfl, ?_⟩, ?_, ?_⟩
  · intro o ho
    rcases List.mem_cons.mp ho with h | h
    · rw [h]
      rfl
    · rw [List.mem_singleton.mp h]
      rfl
  · unfold run
    rw [List.foldl_cons, hs1, List.foldl_cons, hs2, List.foldl_nil]
  · rfl
